import Mathlib

/-!
Shallow embedding of the ASCII conversion core of `src/lib/ascii.ts`
(ascii-webcam-mirror): brightness lookup-table construction, grid
dimension calculation, and raster-to-ASCII conversion.

Numbers in the source are JavaScript numbers used on small integer data;
the embedding models them with exact arithmetic (`ℕ`, `ℤ`, `ℚ`).  Each
`Math.floor` of a ratio of naturals is embedded as natural division, with a
lemma proving it equal to the literal `⌊·⌋` form of the source expression.
Division by zero, which JavaScript maps to `Infinity`/`NaN`, is modelled
explicitly (type `JsNum`) in `calculateGridDimensions`, the one place the
source can divide by zero with an observable result.
-/

namespace AsciiMirror

/-- The built-in character sets (`CHARSETS` in `ascii.ts`), one field per
named set, each charset as its list of glyphs. -/
structure Charsets where
  simple : List Char
  detailed : List Char
  blocks : List Char
deriving DecidableEq

/-- `CHARSETS` from `ascii.ts`.  `Char.ofNat 39` is the typewriter
apostrophe appearing third in the `detailed` ramp; `\x7d\x7b` are the
literal brace characters `}` `{` of the source string. -/
def CHARSETS : Charsets :=
  { simple := " .:-=+*#%@".data
    detailed := " .".data ++ [Char.ofNat 39] ++
      "^\",:;Il!i><~+_-?][\x7d\x7b1)(|\\/*tfjrxnuvczXYUJCLQ0OZmwqpdbkhao*#MW&8%B@$".data
    blocks := " ░▒▓█".data }

/-- `CHAR_Y_PER_X = 2`: monospace glyph aspect constant. -/
def CHAR_Y_PER_X : ℚ := 2

/-- `LUMINANCE_WEIGHTS` (ITU-R BT.709); the decimal literals of the source
taken at their exact decimal values. -/
structure LuminanceWeights where
  R : ℚ
  G : ℚ
  B : ℚ

def LUMINANCE_WEIGHTS : LuminanceWeights :=
  { R := 0.2126, G := 0.7152, B := 0.0722 }

/-- `calculateLuminance(r, g, b) = Math.round(r*0.2126 + g*0.7152 + b*0.0722)`.
`Math.round` rounds half away from zero upward for nonnegative arguments,
which is Mathlib's `round` (`⌊x + 1/2⌋`). -/
def calculateLuminance (r g b : ℚ) : ℤ :=
  round (r * LUMINANCE_WEIGHTS.R + g * LUMINANCE_WEIGHTS.G + b * LUMINANCE_WEIGHTS.B)

/-- The per-brightness glyph index of `createBrightnessLUT`:
`Math.floor((brightness / 255) * (charCount - 1))`, mirrored when `invert`.
The floor of the exact ratio equals the natural division
`brightness * (charCount - 1) / 255` (theorem `brightnessCharIndex_floor`
below), so the division form is used to keep the definition computable. -/
def brightnessCharIndex (charCount brightness : ℕ) (invert : Bool) : ℕ :=
  let charIndex := brightness * (charCount - 1) / 255
  if invert then charCount - 1 - charIndex else charIndex

/-- `createBrightnessLUT(charset, invert)`: throws on an empty charset,
otherwise returns the 256-entry table `lut[b] = charset[index(b)]`.
The `getD` default is never reached: the index is at most `charCount - 1`. -/
def createBrightnessLUT (charset : List Char) (invert : Bool) :
    Except String (List Char) :=
  if charset.length = 0 then
    .error "Charset cannot be empty"
  else
    .ok ((List.range 256).map fun brightness =>
      charset.getD (brightnessCharIndex charset.length brightness invert) ' ')

/-- JavaScript number results relevant to this code: a finite (exact)
value, a signed infinity, or NaN.  Negative zero is not distinguished
(no code path here observes it). -/
inductive JsNum where
  | finite (q : ℚ)
  | posInf
  | negInf
  | nan
deriving DecidableEq

/-- JavaScript division on `JsNum`, including the division-by-zero cases
`x/0 = ±Infinity` (`x ≠ 0`) and `0/0 = NaN`. -/
def jsDiv : JsNum → JsNum → JsNum
  | .finite a, .finite b =>
    if b = 0 then
      if a = 0 then .nan else if 0 < a then .posInf else .negInf
    else .finite (a / b)
  | .finite _, .posInf => .finite 0
  | .finite _, .negInf => .finite 0
  | .posInf, .finite b => if b < 0 then .negInf else .posInf
  | .negInf, .finite b => if b < 0 then .posInf else .negInf
  | _, _ => .nan

/-- JavaScript multiplication on `JsNum`. -/
def jsMul : JsNum → JsNum → JsNum
  | .finite a, .finite b => .finite (a * b)
  | .finite a, .posInf => if a = 0 then .nan else if 0 < a then .posInf else .negInf
  | .finite a, .negInf => if a = 0 then .nan else if 0 < a then .negInf else .posInf
  | .posInf, .finite b => if b = 0 then .nan else if 0 < b then .posInf else .negInf
  | .negInf, .finite b => if b = 0 then .nan else if 0 < b then .negInf else .posInf
  | .posInf, .posInf => .posInf
  | .posInf, .negInf => .negInf
  | .negInf, .posInf => .negInf
  | .negInf, .negInf => .posInf
  | _, _ => .nan

/-- `Math.floor` on `JsNum` (identity on infinities and NaN). -/
def jsFloor : JsNum → JsNum
  | .finite q => .finite (⌊q⌋ : ℤ)
  | .posInf => .posInf
  | .negInf => .negInf
  | .nan => .nan

/-- Result record of `calculateGridDimensions`. -/
structure GridDims where
  cols : ℚ
  rows : JsNum
deriving DecidableEq

/-- `calculateGridDimensions(videoWidth, videoHeight, cols)`:
`rows = Math.floor(videoHeight / (videoWidth / cols * CHAR_Y_PER_X))`,
`cols` passed through unchanged. -/
def calculateGridDimensions (videoWidth videoHeight cols : ℚ) : GridDims :=
  { cols := cols
    rows := jsFloor (jsDiv (.finite videoHeight)
      (jsMul (jsDiv (.finite videoWidth) (.finite cols)) (.finite CHAR_Y_PER_X))) }

/-- Canvas `ImageData`: width, height, and the flat RGBA byte list
`data` of length `4 * width * height`, laid out row-major with 4 entries
per pixel. -/
structure ImageData where
  width : ℕ
  height : ℕ
  data : List ℕ

/-- `startX = Math.floor(col * cellWidth)` with `cellWidth = width / cols`.
Over exact arithmetic `⌊c * (w / cols)⌋ = c * w / cols` in natural
division, also at `cols = 0` where both sides are `0`
(theorem `cellStartX_floor` below). -/
def cellStartX (img : ImageData) (cols c : ℕ) : ℕ :=
  c * img.width / cols

/-- `endX = Math.floor((col + 1) * cellWidth)`. -/
def cellEndX (img : ImageData) (cols c : ℕ) : ℕ :=
  (c + 1) * img.width / cols

/-- `startY = Math.floor(row * cellHeight)` with `cellHeight = height / rows`. -/
def cellStartY (img : ImageData) (rows r : ℕ) : ℕ :=
  r * img.height / rows

/-- `endY = Math.floor((row + 1) * cellHeight)`. -/
def cellEndY (img : ImageData) (rows r : ℕ) : ℕ :=
  (r + 1) * img.height / rows

/-- The `(y, x)` pairs visited by the two nested pixel loops of a cell:
`y` from `startY` to `endY - 1`, and for each `y`, `x` from `startX` to
`endX - 1`. -/
def cellPixels (img : ImageData) (cols rows r c : ℕ) : List (ℕ × ℕ) :=
  (List.range' (cellStartY img rows r) (cellEndY img rows r - cellStartY img rows r)).flatMap
    fun y =>
      (List.range' (cellStartX img cols c) (cellEndX img cols c - cellStartX img cols c)).map
        fun x => (y, x)

/-- `data[(y * width + x) * 4 + ch]` (in-bounds for every visited pixel of
a well-formed buffer; the `getD` default `0` models out-of-range reads of
a too-short buffer as zero). -/
def channelAt (img : ImageData) (y x ch : ℕ) : ℕ :=
  img.data.getD ((y * img.width + x) * 4 + ch) 0

/-- `totalR` / `totalG` / `totalB` for channel `ch ∈ {0, 1, 2}`: sum of the
channel over the cell's pixel rectangle. -/
def cellTotal (img : ImageData) (cols rows r c ch : ℕ) : ℕ :=
  ((cellPixels img cols rows r c).map fun p => channelAt img p.1 p.2 ch).sum

/-- `pixelCount`: the number of pixels visited in the cell. -/
def cellCount (img : ImageData) (cols rows r c : ℕ) : ℕ :=
  (cellPixels img cols rows r c).length

/-- `avgR` / `avgG` / `avgB`: per-channel mean of the cell (exact). -/
def cellAvg (img : ImageData) (cols rows r c ch : ℕ) : ℚ :=
  (cellTotal img cols rows r c ch : ℚ) / (cellCount img cols rows r c : ℚ)

/-- `brightness = calculateLuminance(avgR, avgG, avgB)` for one cell. -/
def cellLuminance (img : ImageData) (cols rows r c : ℕ) : ℤ :=
  calculateLuminance (cellAvg img cols rows r c 0) (cellAvg img cols rows r c 1)
    (cellAvg img cols rows r c 2)

/-- The glyph emitted for one cell: `lut[brightness]` when the cell has
pixels, `lut[0]` (darkest) otherwise. -/
def cellChar (img : ImageData) (cols rows : ℕ) (lut : List Char) (r c : ℕ) : Char :=
  if 0 < cellCount img cols rows r c then
    lut.getD (cellLuminance img cols rows r c).toNat ' '
  else
    lut.getD 0 ' '

/-- The color string formatted for one cell:
`` `rgb(${Math.round(avgR)}, ${Math.round(avgG)}, ${Math.round(avgB)})` ``. -/
def cellColor (img : ImageData) (cols rows r c : ℕ) : String :=
  "rgb(" ++ toString (round (cellAvg img cols rows r c 0)) ++ ", " ++
    toString (round (cellAvg img cols rows r c 1)) ++ ", " ++
    toString (round (cellAvg img cols rows r c 2)) ++ ")"

/-- One column step of the loop-carried `rowColor` variable: overwritten
with the cell's color when the cell has pixels, left unchanged otherwise. -/
def colorStep (img : ImageData) (cols rows r c : ℕ) (rowColor : String) : String :=
  if 0 < cellCount img cols rows r c then cellColor img cols rows r c else rowColor

/-- `rowString` after the column loop of row `r`: one glyph per column. -/
def rowString (img : ImageData) (cols rows : ℕ) (lut : List Char) (r : ℕ) : String :=
  (List.range cols).foldl (fun s c => s.push (cellChar img cols rows lut r c)) ""

/-- `rowColor` after the column loop of row `r`: `''` if no cell of the
row has pixels, otherwise the color of the last cell that does. -/
def rowColor (img : ImageData) (cols rows r : ℕ) : String :=
  (List.range cols).foldl (fun s c => colorStep img cols rows r c s) ""

/-- Result of `imageDataToAscii`: the text block, and the per-row colors
present exactly when color mode was requested. -/
structure AsciiResult where
  ascii : String
  colors : Option (List String)
deriving DecidableEq

/-- `imageDataToAscii(imageData, cols, rows, lut, colorMode)`:
`ascii += rowString + '\n'` per row; `colors.push(rowColor)` per row in
color mode. -/
def imageDataToAscii (img : ImageData) (cols rows : ℕ) (lut : List Char)
    (colorMode : Bool) : AsciiResult :=
  { ascii := (List.range rows).foldl
      (fun acc r => acc ++ rowString img cols rows lut r ++ "\n") ""
    colors := if colorMode then
        some ((List.range rows).map (rowColor img cols rows))
      else none }

/-! ### Exact-arithmetic bridges

Each `Math.floor`/`Math.round` of a ratio embedded above as a natural
division is proved equal to the literal floor/round expression of the
source here. -/

/-- Floor of a ratio of naturals is natural division. -/
theorem floor_natCast_div (m d : ℕ) : ⌊(m : ℚ) / (d : ℚ)⌋ = ((m / d : ℕ) : ℤ) := by
  rw [← Int.natCast_floor_eq_floor (by positivity), Nat.floor_div_nat, Nat.floor_natCast]

/-- `Math.round(p / q)` over exact arithmetic is the natural division
`(2p + q) / (2q)`, including `q = 0` (where the exact ratio is read as 0). -/
theorem round_natCast_div (p q : ℕ) : round ((p : ℚ) / q) = ((2 * p + q) / (2 * q) : ℕ) := by
  rcases Nat.eq_zero_or_pos q with hq | hq
  · subst hq
    simp
  · have key : (p : ℚ) / q + 1 / 2 = ((2 * p + q : ℕ) : ℚ) / ((2 * q : ℕ) : ℚ) := by
      have hqQ : ((q : ℚ)) ≠ 0 := Nat.cast_ne_zero.mpr hq.ne'
      push_cast
      field_simp
      ring
    rw [round_eq, key, ← Int.natCast_floor_eq_floor (by positivity), Nat.floor_div_nat,
      Nat.floor_natCast]

/-- The glyph index of `createBrightnessLUT` written as in the source:
`Math.floor((brightness / 255) * (charCount - 1))`, mirrored on `invert`. -/
theorem brightnessCharIndex_floor (charCount brightness : ℕ) (invert : Bool)
    (h : 1 ≤ charCount) :
    brightnessCharIndex charCount brightness invert =
      if invert then
        charCount - 1 - Nat.floor (((brightness : ℚ) / 255) * ((charCount : ℚ) - 1))
      else
        Nat.floor (((brightness : ℚ) / 255) * ((charCount : ℚ) - 1)) := by
  have h1 : ((charCount : ℚ)) - 1 = ((charCount - 1 : ℕ) : ℚ) := by
    push_cast [h]
    ring
  have h2 : Nat.floor (((brightness : ℚ) / 255) * ((charCount : ℚ) - 1)) =
      brightness * (charCount - 1) / 255 := by
    rw [h1, show ((brightness : ℚ) / 255) * ((charCount - 1 : ℕ) : ℚ) =
        ((brightness * (charCount - 1) : ℕ) : ℚ) / ((255 : ℕ) : ℚ) by push_cast; ring,
      Nat.floor_div_nat, Nat.floor_natCast]
  rw [brightnessCharIndex, h2]

/-- `cellStartX` written as in the source: `Math.floor(col * (width / cols))`.
Holds for every `cols`, including `cols = 0` (both sides are `0`). -/
theorem cellStartX_floor (img : ImageData) (cols c : ℕ) :
    cellStartX img cols c = Nat.floor ((c : ℚ) * ((img.width : ℚ) / (cols : ℚ))) := by
  rw [cellStartX, show (c : ℚ) * ((img.width : ℚ) / (cols : ℚ)) =
      ((c * img.width : ℕ) : ℚ) / ((cols : ℕ) : ℚ) by push_cast; ring,
    Nat.floor_div_nat, Nat.floor_natCast]

/-- `cellEndX` written as in the source: `Math.floor((col + 1) * (width / cols))`. -/
theorem cellEndX_floor (img : ImageData) (cols c : ℕ) :
    cellEndX img cols c = Nat.floor (((c : ℚ) + 1) * ((img.width : ℚ) / (cols : ℚ))) := by
  rw [cellEndX, show ((c : ℚ) + 1) * ((img.width : ℚ) / (cols : ℚ)) =
      (((c + 1) * img.width : ℕ) : ℚ) / ((cols : ℕ) : ℚ) by push_cast; ring,
    Nat.floor_div_nat, Nat.floor_natCast]

/-- `cellStartY` written as in the source: `Math.floor(row * (height / rows))`. -/
theorem cellStartY_floor (img : ImageData) (rows r : ℕ) :
    cellStartY img rows r = Nat.floor ((r : ℚ) * ((img.height : ℚ) / (rows : ℚ))) := by
  rw [cellStartY, show (r : ℚ) * ((img.height : ℚ) / (rows : ℚ)) =
      ((r * img.height : ℕ) : ℚ) / ((rows : ℕ) : ℚ) by push_cast; ring,
    Nat.floor_div_nat, Nat.floor_natCast]

/-- `cellEndY` written as in the source: `Math.floor((row + 1) * (height / rows))`. -/
theorem cellEndY_floor (img : ImageData) (rows r : ℕ) :
    cellEndY img rows r = Nat.floor (((r : ℚ) + 1) * ((img.height : ℚ) / (rows : ℚ))) := by
  rw [cellEndY, show ((r : ℚ) + 1) * ((img.height : ℚ) / (rows : ℚ)) =
      (((r + 1) * img.height : ℕ) : ℚ) / ((rows : ℕ) : ℚ) by push_cast; ring,
    Nat.floor_div_nat, Nat.floor_natCast]

/-- An empty cell has zero channel totals. -/
theorem cellTotal_of_count_zero (img : ImageData) (cols rows r c ch : ℕ)
    (h : cellCount img cols rows r c = 0) : cellTotal img cols rows r c ch = 0 := by
  rw [cellTotal, List.length_eq_zero.mp h]
  rfl

/-- `cellLuminance` computed by natural division: the cell brightness is
`(2·(2126·R + 7152·G + 722·B) + 10000·n) / (2·10000·n)` over the raw
channel totals, where `n` is the pixel count.  Holds also for empty cells
(both sides are `0`). -/
theorem cellLuminance_eq_natDiv (img : ImageData) (cols rows r c : ℕ) :
    cellLuminance img cols rows r c =
      ((2 * (2126 * cellTotal img cols rows r c 0 + 7152 * cellTotal img cols rows r c 1 +
          722 * cellTotal img cols rows r c 2) + 10000 * cellCount img cols rows r c) /
        (2 * (10000 * cellCount img cols rows r c)) : ℕ) := by
  rcases Nat.eq_zero_or_pos (cellCount img cols rows r c) with h | h
  · rw [cellLuminance, calculateLuminance, cellAvg, cellAvg, cellAvg, h,
      cellTotal_of_count_zero img cols rows r c 0 h, cellTotal_of_count_zero img cols rows r c 1 h,
      cellTotal_of_count_zero img cols rows r c 2 h]
    simp
  · rw [cellLuminance, calculateLuminance, cellAvg, cellAvg, cellAvg]
    have hnQ : ((cellCount img cols rows r c : ℚ)) ≠ 0 := Nat.cast_ne_zero.mpr h.ne'
    have key : (cellTotal img cols rows r c 0 : ℚ) / (cellCount img cols rows r c : ℚ) *
          LUMINANCE_WEIGHTS.R +
        (cellTotal img cols rows r c 1 : ℚ) / (cellCount img cols rows r c : ℚ) *
          LUMINANCE_WEIGHTS.G +
        (cellTotal img cols rows r c 2 : ℚ) / (cellCount img cols rows r c : ℚ) *
          LUMINANCE_WEIGHTS.B + 1 / 2 =
        ((2 * (2126 * cellTotal img cols rows r c 0 + 7152 * cellTotal img cols rows r c 1 +
            722 * cellTotal img cols rows r c 2) + 10000 * cellCount img cols rows r c : ℕ) : ℚ) /
          ((2 * (10000 * cellCount img cols rows r c) : ℕ) : ℚ) := by
      rw [LUMINANCE_WEIGHTS]
      push_cast
      field_simp
      ring
    rw [round_eq, key, ← Int.natCast_floor_eq_floor (by positivity), Nat.floor_div_nat,
      Nat.floor_natCast]

/-- `Math.round` of a cell's per-channel mean by natural division. -/
theorem round_cellAvg_eq_natDiv (img : ImageData) (cols rows r c ch : ℕ) :
    round (cellAvg img cols rows r c ch) =
      ((2 * cellTotal img cols rows r c ch + cellCount img cols rows r c) /
        (2 * cellCount img cols rows r c) : ℕ) := by
  rw [cellAvg, round_natCast_div]

/-- `getD` of a mapped `range` at an in-range index. -/
theorem getD_map_range {α : Type} (f : ℕ → α) {n i : ℕ} (h : i < n) (d : α) :
    ((List.range n).map f).getD i d = f i := by
  simp [List.getD_eq_getElem?_getD, List.getElem?_map, List.getElem?_range h]

/-- Two strings with the same character data are equal. -/
theorem string_eq_of_data (s t : String) (h : s.data = t.data) : s = t :=
  congrArg String.mk h

/-- A left fold appending strings, started from `s`, prepends `s` to the
fold started from the empty string (`String.join`). -/
theorem foldl_string_append (l : List String) :
    ∀ s : String, l.foldl (· ++ ·) s = s ++ String.join l := by
  induction l with
  | nil =>
    intro s
    simp [String.join]
  | cons x t ih =>
    intro s
    show t.foldl (· ++ ·) (s ++ x) = s ++ String.join (x :: t)
    rw [ih (s ++ x)]
    have hx : String.join (x :: t) = x ++ String.join t := by
      show t.foldl (· ++ ·) ("" ++ x) = x ++ String.join t
      rw [ih ("" ++ x)]
      simp
    rw [hx, String.append_assoc]

/-- `String.join` of a cons. -/
theorem string_join_cons (x : String) (t : List String) :
    String.join (x :: t) = x ++ String.join t := by
  show t.foldl (· ++ ·) ("" ++ x) = x ++ String.join t
  rw [foldl_string_append t ("" ++ x)]
  simp

/-- The row loop of `imageDataToAscii` produces the join of the rows, each
terminated by the line terminator. -/
theorem foldl_rows_eq_join (g : ℕ → String) (l : List ℕ) :
    ∀ s : String,
      l.foldl (fun acc r => acc ++ g r ++ "\n") s =
        s ++ String.join (l.map fun r => g r ++ "\n") := by
  induction l with
  | nil =>
    intro s
    simp [String.join]
  | cons a t ih =>
    intro s
    show t.foldl (fun acc r => acc ++ g r ++ "\n") (s ++ g a ++ "\n") = _
    rw [ih (s ++ g a ++ "\n"), List.map_cons, string_join_cons, ← String.append_assoc,
      String.append_assoc s (g a) "\n"]

/-- The column loop pushes exactly one character per column. -/
theorem length_foldl_push (f : ℕ → Char) (l : List ℕ) :
    ∀ s : String, (l.foldl (fun s c => s.push (f c)) s).length = s.length + l.length := by
  induction l with
  | nil =>
    intro s
    simp
  | cons a t ih =>
    intro s
    show (t.foldl (fun s c => s.push (f c)) (s.push (f a))).length = _
    rw [ih (s.push (f a))]
    simp
    omega

/-- `rowString` has exactly one character per column. -/
theorem rowString_length (img : ImageData) (cols rows : ℕ) (lut : List Char) (r : ℕ) :
    (rowString img cols rows lut r).length = cols := by
  rw [rowString]
  rw [length_foldl_push (fun c => cellChar img cols rows lut r c) (List.range cols) ""]
  simp

/-! ### Claims -/

/-- C1: for every non-empty charset of length N, every invert flag, and
every luminance b in [0,255], `createBrightnessLUT` succeeds with a table
of exactly 256 entries whose entry b is the charset glyph at index
`⌊(b / 255) * (N - 1)⌋`, mirrored to `(N - 1) - ⌊(b / 255) * (N - 1)⌋`
when invert is set. -/
theorem spec_C1 (cs : List Char) (invert : Bool) (hcs : cs ≠ []) :
    ∃ lut, createBrightnessLUT cs invert = .ok lut ∧ lut.length = 256 ∧
      ∀ b : ℕ, b ≤ 255 → lut.getD b ' ' =
        cs.getD (if invert then
            cs.length - 1 - Nat.floor (((b : ℚ) / 255) * ((cs.length : ℚ) - 1))
          else Nat.floor (((b : ℚ) / 255) * ((cs.length : ℚ) - 1))) ' ' := by
  have hlen : cs.length ≠ 0 := by
    simpa [List.length_eq_zero] using hcs
  have hone : 1 ≤ cs.length := Nat.pos_of_ne_zero hlen
  refine ⟨(List.range 256).map fun b => cs.getD (brightnessCharIndex cs.length b invert) ' ',
    ?_, ?_, ?_⟩
  · rw [createBrightnessLUT, if_neg hlen]
  · simp
  · intro b hb
    rw [getD_map_range _ (by omega) ' ', brightnessCharIndex_floor cs.length b invert hone]

/-- C1 witness: concrete instantiation at the two-glyph charset `"xy"`
with invert set. -/
theorem spec_C1_witness :
    ∃ lut, createBrightnessLUT ['x', 'y'] true = .ok lut ∧ lut.length = 256 ∧
      ∀ b : ℕ, b ≤ 255 → lut.getD b ' ' =
        ['x', 'y'].getD (if true then
            2 - 1 - Nat.floor (((b : ℚ) / 255) * ((([ 'x', 'y'] : List Char).length : ℚ) - 1))
          else Nat.floor (((b : ℚ) / 255) * ((([ 'x', 'y'] : List Char).length : ℚ) - 1))) ' ' :=
  spec_C1 ['x', 'y'] true (by decide)

/-- C2: for every raster, grid size, LUT and color flag, the produced text
is the concatenation of exactly `rows` lines of exactly `cols` characters
each, every line followed by the terminator; in color mode the colors list
has exactly `rows` entries, one per row in row order. -/
theorem spec_C2 (img : ImageData) (cols rows : ℕ) (lut : List Char) (colorMode : Bool) :
    ∃ ls : List String,
      ls.length = rows ∧ (∀ s ∈ ls, s.length = cols) ∧
      (imageDataToAscii img cols rows lut colorMode).ascii =
        String.join (ls.map fun s => s ++ "\n") ∧
      ∃ cl : List String,
        (imageDataToAscii img cols rows lut true).colors = some cl ∧
        cl.length = rows ∧ ∀ r : ℕ, r < rows → cl.getD r "" = rowColor img cols rows r := by
  refine ⟨(List.range rows).map (rowString img cols rows lut), by simp, ?_, ?_,
    (List.range rows).map (rowColor img cols rows), ?_, by simp, ?_⟩
  · intro s hs
    rcases List.mem_map.mp hs with ⟨r, _, rfl⟩
    exact rowString_length img cols rows lut r
  · rw [imageDataToAscii]
    rw [foldl_rows_eq_join (rowString img cols rows lut) (List.range rows) ""]
    simp [List.map_map]
    rfl
  · rw [imageDataToAscii]
    simp
  · intro r hr
    exact getD_map_range _ hr ""

/-- C2 witness: concrete instantiation on a 1×1 raster with a 1×1 grid. -/
theorem spec_C2_witness :
    ∃ ls : List String,
      ls.length = 1 ∧ (∀ s ∈ ls, s.length = 1) ∧
      (imageDataToAscii ⟨1, 1, [10, 20, 30, 255]⟩ 1 1 [] false).ascii =
        String.join (ls.map fun s => s ++ "\n") ∧
      ∃ cl : List String,
        (imageDataToAscii ⟨1, 1, [10, 20, 30, 255]⟩ 1 1 [] true).colors = some cl ∧
        cl.length = 1 ∧
        ∀ r : ℕ, r < 1 → cl.getD r "" = rowColor ⟨1, 1, [10, 20, 30, 255]⟩ 1 1 r :=
  spec_C2 ⟨1, 1, [10, 20, 30, 255]⟩ 1 1 [] false

/-- C9: for every non-empty charset, the non-inverted table maps luminance
0 to the first glyph and 255 to the last glyph, and the selected glyph
index is non-decreasing in the luminance. -/
theorem spec_C9 (cs : List Char) (hcs : cs ≠ []) :
    ∃ lut, createBrightnessLUT cs false = .ok lut ∧
      lut.getD 0 ' ' = cs.getD 0 ' ' ∧
      lut.getD 255 ' ' = cs.getD (cs.length - 1) ' ' ∧
      ∀ a b : ℕ, a ≤ b → b ≤ 255 →
        brightnessCharIndex cs.length a false ≤ brightnessCharIndex cs.length b false := by
  have hlen : cs.length ≠ 0 := by
    simpa [List.length_eq_zero] using hcs
  refine ⟨(List.range 256).map fun b => cs.getD (brightnessCharIndex cs.length b false) ' ',
    ?_, ?_, ?_, ?_⟩
  · rw [createBrightnessLUT, if_neg hlen]
  · rw [getD_map_range _ (by norm_num) ' ']
    simp [brightnessCharIndex]
  · rw [getD_map_range _ (by norm_num) ' ']
    rw [brightnessCharIndex]
    simp [Nat.mul_div_cancel_left _ (by norm_num : 0 < 255)]
  · intro a b hab _
    simp only [brightnessCharIndex, Bool.false_eq_true, if_false]
    exact Nat.div_le_div_right (Nat.mul_le_mul_right _ hab)

/-- C9 witness: concrete instantiation at the built-in simple charset. -/
theorem spec_C9_witness :
    ∃ lut, createBrightnessLUT CHARSETS.simple false = .ok lut ∧
      lut.getD 0 ' ' = CHARSETS.simple.getD 0 ' ' ∧
      lut.getD 255 ' ' = CHARSETS.simple.getD (CHARSETS.simple.length - 1) ' ' ∧
      ∀ a b : ℕ, a ≤ b → b ≤ 255 →
        brightnessCharIndex CHARSETS.simple.length a false ≤
          brightnessCharIndex CHARSETS.simple.length b false :=
  spec_C9 CHARSETS.simple (by decide)

/-- C4: for positive width, height and columns, `calculateGridDimensions`
returns the given `cols` and `rows = ⌊height / (width / cols * 2)⌋`; in
particular `(640, 480, 80) ↦ (80, 30)` and `(1920, 1080, 120) ↦ (120, 33)`. -/
theorem spec_C4 :
    (∀ w h c : ℚ, 0 < w → 0 < h → 0 < c →
      calculateGridDimensions w h c = ⟨c, .finite ((⌊h / (w / c * 2)⌋ : ℤ) : ℚ)⟩) ∧
    calculateGridDimensions 640 480 80 = ⟨80, .finite 30⟩ ∧
    calculateGridDimensions 1920 1080 120 = ⟨120, .finite 33⟩ := by
  have general : ∀ w h c : ℚ, 0 < w → 0 < h → 0 < c →
      calculateGridDimensions w h c = ⟨c, .finite ((⌊h / (w / c * 2)⌋ : ℤ) : ℚ)⟩ := by
    intro w h c hw hh hc
    have hc0 : c ≠ 0 := hc.ne'
    have h2 : w / c * 2 ≠ 0 := by positivity
    rw [calculateGridDimensions, CHAR_Y_PER_X, jsDiv, if_neg hc0, jsMul, jsDiv, if_neg h2,
      jsFloor]
  refine ⟨general, ?_, ?_⟩
  · rw [general 640 480 80 (by norm_num) (by norm_num) (by norm_num)]
    have h30 : (480 : ℚ) / ((640 : ℚ) / 80 * 2) = 30 := by norm_num
    rw [h30]
    norm_num
  · rw [general 1920 1080 120 (by norm_num) (by norm_num) (by norm_num)]
    have h135 : (1080 : ℚ) / ((1920 : ℚ) / 120 * 2) = 135 / 4 := by norm_num
    rw [h135]
    have h33 : ⌊(135 / 4 : ℚ)⌋ = 33 := by
      rw [Int.floor_eq_iff]
      norm_num
    rw [h33]
    norm_num

/-- C4 witness: the general formula instantiated at width 2, height 2,
1 column. -/
theorem spec_C4_witness :
    calculateGridDimensions 2 2 1 = ⟨1, .finite ((⌊(2 : ℚ) / ((2 : ℚ) / 1 * 2)⌋ : ℤ) : ℚ)⟩ :=
  spec_C4.1 2 2 1 (by norm_num) (by norm_num) (by norm_num)

set_option maxRecDepth 10000 in
/-- C5: `createBrightnessLUT` rejects the empty charset for either invert
flag, and for the singleton charset `"x"` returns 256 copies of `'x'`. -/
theorem spec_C5 :
    createBrightnessLUT [] false = .error "Charset cannot be empty" ∧
    createBrightnessLUT [] true = .error "Charset cannot be empty" ∧
    createBrightnessLUT ['x'] false = .ok (List.replicate 256 'x') := by
  refine ⟨rfl, rfl, ?_⟩
  rfl

/-- C8 as claimed fails on the code: with `sourceWidth = 0` (and positive
height) JavaScript evaluates `height / (0 / cols * 2)` as `height / 0 =
Infinity`, so `rows` is `Infinity`, not `0`. -/
theorem spec_C8_cex :
    (calculateGridDimensions 0 480 80).rows = .posInf ∧
    JsNum.posInf ≠ JsNum.finite 0 := by
  constructor
  · rw [calculateGridDimensions, CHAR_Y_PER_X, jsDiv, if_neg (by norm_num : (80 : ℚ) ≠ 0),
      show (0 : ℚ) / 80 = 0 by norm_num, jsMul, zero_mul, jsDiv, if_pos rfl,
      if_neg (by norm_num : ¬(480 : ℚ) = 0), if_pos (by norm_num : (0 : ℚ) < 480), jsFloor]
  · simp

/-- C8 amended: for positive columns, a zero `sourceHeight` with positive
`sourceWidth` yields `rows = 0` with no error; a zero `sourceWidth` yields
`rows = Infinity` when `sourceHeight` is positive and `NaN` when it is
also zero. -/
theorem spec_C8_amended (w h c : ℚ) (hc : 0 < c) :
    (h = 0 → 0 < w → (calculateGridDimensions w h c).rows = .finite 0) ∧
    (w = 0 → 0 < h → (calculateGridDimensions w h c).rows = .posInf) ∧
    (w = 0 → h = 0 → (calculateGridDimensions w h c).rows = .nan) := by
  have hc0 : c ≠ 0 := hc.ne'
  refine ⟨?_, ?_, ?_⟩
  · intro hh hw
    have h2 : w / c * 2 ≠ 0 := by positivity
    rw [calculateGridDimensions, CHAR_Y_PER_X, jsDiv, if_neg hc0, jsMul, jsDiv, if_neg h2,
      hh, zero_div, jsFloor]
    norm_num
  · intro hw hh
    rw [calculateGridDimensions, CHAR_Y_PER_X, hw, jsDiv, if_neg hc0, zero_div, jsMul,
      zero_mul, jsDiv, if_pos rfl, if_neg hh.ne', if_pos hh, jsFloor]
  · intro hw hh
    rw [calculateGridDimensions, CHAR_Y_PER_X, hw, hh, jsDiv, if_neg hc0, zero_div, jsMul,
      zero_mul, jsDiv, if_pos rfl, if_pos rfl, jsFloor]

/-- C8 amended witness: concrete instantiations of all three cases. -/
theorem spec_C8_amended_witness :
    ((0 : ℚ) = 0 → (0 : ℚ) < 640 → (calculateGridDimensions 640 0 80).rows = .finite 0) ∧
    ((0 : ℚ) = 0 → (0 : ℚ) < 480 → (calculateGridDimensions 0 480 80).rows = .posInf) ∧
    ((0 : ℚ) = 0 → (0 : ℚ) = 0 → (calculateGridDimensions 0 0 80).rows = .nan) :=
  ⟨(spec_C8_amended 640 0 80 (by norm_num)).1,
    (spec_C8_amended 0 480 80 (by norm_num)).2.1,
    (spec_C8_amended 0 0 80 (by norm_num)).2.2⟩

/-- Every channel read of an 8-bit buffer is at most 255 (out-of-range
reads default to 0). -/
theorem channelAt_le (img : ImageData) (hdata : ∀ v ∈ img.data, v ≤ 255) (y x ch : ℕ) :
    channelAt img y x ch ≤ 255 := by
  rw [channelAt]
  rcases lt_or_ge ((y * img.width + x) * 4 + ch) img.data.length with hlt | hge
  · rw [List.getD_eq_getElem img.data 0 hlt]
    exact hdata _ (List.getElem_mem hlt)
  · rw [List.getD_eq_default img.data 0 hge]
    omega

/-- A cell's channel total over an 8-bit buffer is at most 255 times its
pixel count. -/
theorem cellTotal_le (img : ImageData) (cols rows r c ch : ℕ)
    (hdata : ∀ v ∈ img.data, v ≤ 255) :
    cellTotal img cols rows r c ch ≤ 255 * cellCount img cols rows r c := by
  rw [cellTotal, cellCount]
  calc ((cellPixels img cols rows r c).map fun p => channelAt img p.1 p.2 ch).sum
      ≤ ((cellPixels img cols rows r c).map fun p => channelAt img p.1 p.2 ch).length • 255 := by
        refine List.sum_le_card_nsmul _ 255 ?_
        intro x hx
        rcases List.mem_map.mp hx with ⟨p, _, rfl⟩
        exact channelAt_le img hdata p.1 p.2 ch
    _ = 255 * (cellPixels img cols rows r c).length := by
        rw [List.length_map]
        rw [smul_eq_mul, Nat.mul_comm]

/-- A nonempty cell's per-channel mean lies in [0, 255]. -/
theorem cellAvg_bounds (img : ImageData) (cols rows r c ch : ℕ)
    (hdata : ∀ v ∈ img.data, v ≤ 255) (hn : 0 < cellCount img cols rows r c) :
    0 ≤ cellAvg img cols rows r c ch ∧ cellAvg img cols rows r c ch ≤ 255 := by
  have hnQ : (0 : ℚ) < (cellCount img cols rows r c : ℚ) := by
    exact_mod_cast hn
  constructor
  · rw [cellAvg]
    positivity
  · rw [cellAvg, div_le_iff₀ hnQ]
    exact_mod_cast cellTotal_le img cols rows r c ch hdata

/-- `calculateLuminance` maps channel values in [0, 255] into [0, 255]:
the three BT.709 weights sum to exactly 1. -/
theorem calculateLuminance_bounds (r g b : ℚ) (hr0 : 0 ≤ r) (hr : r ≤ 255)
    (hg0 : 0 ≤ g) (hg : g ≤ 255) (hb0 : 0 ≤ b) (hb : b ≤ 255) :
    0 ≤ calculateLuminance r g b ∧ calculateLuminance r g b ≤ 255 := by
  rw [calculateLuminance, LUMINANCE_WEIGHTS]
  constructor
  · rw [round_eq]
    positivity
  · rw [round_eq]
    calc ⌊r * (0.2126 : ℚ) + g * (0.7152 : ℚ) + b * (0.0722 : ℚ) + 1 / 2⌋
        ≤ ⌊(255 : ℚ) + 1 / 2⌋ := Int.floor_le_floor (by linarith)
      _ = 255 := by
          rw [Int.floor_eq_iff]
          norm_num

/-- C10: for every cell with at least one pixel over an 8-bit raster, the
cell luminance `round(0.2126·R + 0.7152·G + 0.0722·B)` of the per-channel
means lies in [0, 255], so the table access into a 256-entry LUT is in
bounds (no clamping is needed and the conversion cannot fault). -/
theorem spec_C10 (img : ImageData) (cols rows r c : ℕ)
    (hdata : ∀ v ∈ img.data, v ≤ 255) (hn : 0 < cellCount img cols rows r c) :
    (0 ≤ cellLuminance img cols rows r c ∧ cellLuminance img cols rows r c ≤ 255) ∧
    ∀ lut : List Char, lut.length = 256 →
      (cellLuminance img cols rows r c).toNat < lut.length := by
  obtain ⟨h00, h0⟩ := cellAvg_bounds img cols rows r c 0 hdata hn
  obtain ⟨h10, h1⟩ := cellAvg_bounds img cols rows r c 1 hdata hn
  obtain ⟨h20, h2⟩ := cellAvg_bounds img cols rows r c 2 hdata hn
  have hbounds := calculateLuminance_bounds _ _ _ h00 h0 h10 h1 h20 h2
  refine ⟨hbounds, ?_⟩
  intro lut hlut
  rw [hlut]
  have : (cellLuminance img cols rows r c).toNat ≤ 255 :=
    Int.toNat_le.mpr hbounds.2
  omega

/-- C10 witness: concrete instantiation on a 1×1 raster. -/
theorem spec_C10_witness :
    (0 ≤ cellLuminance ⟨1, 1, [10, 20, 30, 255]⟩ 1 1 0 0 ∧
      cellLuminance ⟨1, 1, [10, 20, 30, 255]⟩ 1 1 0 0 ≤ 255) ∧
    ∀ lut : List Char, lut.length = 256 →
      (cellLuminance ⟨1, 1, [10, 20, 30, 255]⟩ 1 1 0 0).toNat < lut.length :=
  spec_C10 ⟨1, 1, [10, 20, 30, 255]⟩ 1 1 0 0 (by decide) (by decide)

/-- The 256-entry table built from the built-in `simple` charset without
inversion, extracted for concrete evaluations. -/
def lutSimple : List Char :=
  (createBrightnessLUT CHARSETS.simple false).toOption.getD []

/-- A 2×2 raster whose every pixel is `(128, 128, 128)` (alpha 255). -/
def gray2 : ImageData :=
  ⟨2, 2, [128, 128, 128, 255, 128, 128, 128, 255,
          128, 128, 128, 255, 128, 128, 128, 255]⟩

set_option maxRecDepth 10000 in
/-- C6: a cell whose pixel rectangle is empty emits the LUT's index-0
glyph and leaves the row's color accumulator unchanged; converting the
0×0 raster with a 1×1 grid yields exactly the darkest glyph followed by
the line terminator (and an empty color entry in color mode). -/
theorem spec_C6 :
    (∀ (img : ImageData) (cols rows : ℕ) (lut : List Char) (r c : ℕ) (s : String),
      cellCount img cols rows r c = 0 →
      cellChar img cols rows lut r c = lut.getD 0 ' ' ∧ colorStep img cols rows r c s = s) ∧
    ∀ (lut : List Char) (colorMode : Bool),
      (imageDataToAscii ⟨0, 0, []⟩ 1 1 lut colorMode).ascii =
        String.mk [lut.getD 0 ' ', '\n'] ∧
      (imageDataToAscii ⟨0, 0, []⟩ 1 1 lut true).colors = some [""] := by
  constructor
  · intro img cols rows lut r c s h
    rw [cellChar, colorStep, h]
    simp
  · intro lut colorMode
    exact ⟨rfl, rfl⟩

/-- C6 witness: the degenerate cell of the 0×0 raster. -/
theorem spec_C6_witness :
    cellChar ⟨0, 0, []⟩ 1 1 [] 0 0 = [].getD 0 ' ' ∧
    colorStep ⟨0, 0, []⟩ 1 1 0 0 "z" = "z" :=
  spec_C6.1 ⟨0, 0, []⟩ 1 1 [] 0 0 "z" rfl

set_option maxRecDepth 10000 in
/-- C7 counterexample: on a 1×1 raster split into 1 column and 2 rows,
row 0's cell rectangle is empty, so the reported color of row 0 is the
empty string, not the formatted mean `"rgb(0, 0, 0)"` of the cell at
column 0 of row 0 — the claim fails for rows whose last cell has no
pixels. -/
theorem spec_C7_cex :
    ((imageDataToAscii ⟨1, 1, [10, 20, 30, 255]⟩ 1 2 lutSimple true).colors.getD
        []).getD 0 "?" = "" ∧
    cellColor ⟨1, 1, [10, 20, 30, 255]⟩ 1 2 0 0 = "rgb(0, 0, 0)" ∧
    ("" : String) ≠ "rgb(0, 0, 0)" := by
  refine ⟨rfl, ?_, by decide⟩
  rw [cellColor, round_cellAvg_eq_natDiv, round_cellAvg_eq_natDiv, round_cellAvg_eq_natDiv]
  decide

/-- C7 amended: in color mode the colors entry of row r is the formatted
mean RGB of the cell at column `cols - 1` of row r, provided that cell
contains at least one pixel (rows whose last cell is empty instead keep
the last nonempty cell's color, or the empty string). -/
theorem spec_C7_amended (img : ImageData) (cols rows : ℕ) (lut : List Char) (r : ℕ)
    (hr : r < rows) (hc : 0 < cols) (hn : 0 < cellCount img cols rows r (cols - 1)) :
    ∃ cl, (imageDataToAscii img cols rows lut true).colors = some cl ∧
      cl.getD r "" = cellColor img cols rows r (cols - 1) ∧
      cellColor img cols rows r (cols - 1) =
        "rgb(" ++ toString (round (cellAvg img cols rows r (cols - 1) 0)) ++ ", " ++
          toString (round (cellAvg img cols rows r (cols - 1) 1)) ++ ", " ++
          toString (round (cellAvg img cols rows r (cols - 1) 2)) ++ ")" := by
  refine ⟨(List.range rows).map (rowColor img cols rows), ?_, ?_, rfl⟩
  · rw [imageDataToAscii]
    simp
  · rw [getD_map_range _ hr "", rowColor]
    obtain ⟨k, rfl⟩ : ∃ k, cols = k + 1 := ⟨cols - 1, (Nat.succ_pred_eq_of_pos hc).symm⟩
    simp only [Nat.add_sub_cancel] at hn ⊢
    rw [List.range_succ, List.foldl_append, List.foldl_cons, List.foldl_nil, colorStep,
      if_pos hn]

/-- C7 amended witness: a 1×1 raster with a 1×1 grid. -/
theorem spec_C7_amended_witness :
    ∃ cl, (imageDataToAscii ⟨1, 1, [10, 20, 30, 255]⟩ 1 1 [] true).colors = some cl ∧
      cl.getD 0 "" = cellColor ⟨1, 1, [10, 20, 30, 255]⟩ 1 1 0 (1 - 1) ∧
      cellColor ⟨1, 1, [10, 20, 30, 255]⟩ 1 1 0 (1 - 1) =
        "rgb(" ++ toString (round (cellAvg ⟨1, 1, [10, 20, 30, 255]⟩ 1 1 0 (1 - 1) 0)) ++
          ", " ++ toString (round (cellAvg ⟨1, 1, [10, 20, 30, 255]⟩ 1 1 0 (1 - 1) 1)) ++
          ", " ++ toString (round (cellAvg ⟨1, 1, [10, 20, 30, 255]⟩ 1 1 0 (1 - 1) 2)) ++
          ")" :=
  spec_C7_amended ⟨1, 1, [10, 20, 30, 255]⟩ 1 1 [] 0 (by decide) (by decide) (by decide)

set_option maxRecDepth 40000 in
/-- C3: the end-to-end scenario — `simple` charset (10 glyphs), no
inversion, 2×2 uniform gray (128, 128, 128) raster, 2×2 grid, color mode:
every cell has luminance 128, glyph index `⌊(128/255)·9⌋ = 4` selects
`'='`, the text is `"==\n==\n"` and the colors are two copies of
`"rgb(128, 128, 128)"`. -/
theorem spec_C3 :
    createBrightnessLUT CHARSETS.simple false = .ok lutSimple ∧
    CHARSETS.simple.length = 10 ∧
    (cellLuminance gray2 2 2 0 0 = 128 ∧ cellLuminance gray2 2 2 0 1 = 128 ∧
      cellLuminance gray2 2 2 1 0 = 128 ∧ cellLuminance gray2 2 2 1 1 = 128) ∧
    Nat.floor (((128 : ℚ) / 255) * 9) = 4 ∧
    brightnessCharIndex 10 128 false = 4 ∧
    CHARSETS.simple.getD 4 ' ' = '=' ∧
    (imageDataToAscii gray2 2 2 lutSimple true).ascii = "==\n==\n" ∧
    (imageDataToAscii gray2 2 2 lutSimple true).colors =
      some ["rgb(128, 128, 128)", "rgb(128, 128, 128)"] := by
  have hrange : List.range 2 = [0, 1] := rfl
  have c00 : cellChar gray2 2 2 lutSimple 0 0 = '=' := by
    rw [cellChar, cellLuminance_eq_natDiv]
    decide
  have c01 : cellChar gray2 2 2 lutSimple 0 1 = '=' := by
    rw [cellChar, cellLuminance_eq_natDiv]
    decide
  have c10 : cellChar gray2 2 2 lutSimple 1 0 = '=' := by
    rw [cellChar, cellLuminance_eq_natDiv]
    decide
  have c11 : cellChar gray2 2 2 lutSimple 1 1 = '=' := by
    rw [cellChar, cellLuminance_eq_natDiv]
    decide
  have k00 : cellColor gray2 2 2 0 0 = "rgb(128, 128, 128)" := by
    rw [cellColor, round_cellAvg_eq_natDiv, round_cellAvg_eq_natDiv, round_cellAvg_eq_natDiv]
    decide
  have k01 : cellColor gray2 2 2 0 1 = "rgb(128, 128, 128)" := by
    rw [cellColor, round_cellAvg_eq_natDiv, round_cellAvg_eq_natDiv, round_cellAvg_eq_natDiv]
    decide
  have k10 : cellColor gray2 2 2 1 0 = "rgb(128, 128, 128)" := by
    rw [cellColor, round_cellAvg_eq_natDiv, round_cellAvg_eq_natDiv, round_cellAvg_eq_natDiv]
    decide
  have k11 : cellColor gray2 2 2 1 1 = "rgb(128, 128, 128)" := by
    rw [cellColor, round_cellAvg_eq_natDiv, round_cellAvg_eq_natDiv, round_cellAvg_eq_natDiv]
    decide
  refine ⟨rfl, rfl, ⟨?_, ?_, ?_, ?_⟩, ?_, rfl, rfl, ?_, ?_⟩
  · rw [cellLuminance_eq_natDiv]
    decide
  · rw [cellLuminance_eq_natDiv]
    decide
  · rw [cellLuminance_eq_natDiv]
    decide
  · rw [cellLuminance_eq_natDiv]
    decide
  · rw [show ((128 : ℚ) / 255) * 9 = ((1152 : ℕ) : ℚ) / ((255 : ℕ) : ℚ) by norm_num,
      Nat.floor_div_nat, Nat.floor_natCast]
  · simp only [imageDataToAscii, rowString, hrange, List.foldl_cons, List.foldl_nil,
      c00, c01, c10, c11]
    decide
  · simp only [imageDataToAscii, hrange, List.map_cons, List.map_nil, rowColor, colorStep,
      List.foldl_cons, List.foldl_nil, k00, k01, k10, k11]
    decide

end AsciiMirror
